import Mathlib

/-!
Verification development for a stack-based robot-puzzle solver
(a program-synthesis engine for a small stack-based robot language).

The embedding below follows the JavaScript sources:
* `runLoop` / `executeProgram` embed `Solver.executeProgram`
  (solver.js, also duplicated in constraint-solver.js and final-solver.js).
* `runLD` / `executeWithLoopDetection` embed
  `FinalSolver.executeWithLoopDetection` together with `hashState` /
  `hashBoard` (final-solver.js).
* `gameStep` embeds `GameEngine.step` (game-engine portion of the
  constraint-solver.js bundle).
* `propagateConstraints`, `getValidInstructions` embed the
  `ConstraintSolver` methods of the same names; `isValidSequence`,
  `orderInstructions`, `genSlotAux`, `genFuncs`, `searchDepthModel`,
  `solveModel` embed the `FinalSolver` search
  (`solve` / `searchDepth` / `fillFunction`).

Conventions: positions are `Int` (the JS bounds checks compare against 0
and 16 before any board access); board cells, instruction codes, star and
step counters are `Nat` (they stay non-negative in the JS code).  A board
lookup out of range yields the default 0; in the JS code every lookup is
either bounds-guarded or at the robot's current (in-board) position.
Instructions are encoded as in the source: `cond * 100 + opcode` with
opcodes NO=0 FW=1 TL=2 TR=3 P1=4 P2=5 P3=6 F0=7 F1=8 F2=9.
-/

namespace LogicGame

/-- Runtime state of one VM execution (the mutable `state` object of
`executeProgram`). -/
structure VMState where
  x : Int
  y : Int
  dir : Nat
  stars : Nat
  board : List (List Nat)
  stack : List Nat
  steps : Nat
  deriving DecidableEq

/-- Result value of `executeProgram`: the JS code returns
`{solved: true, steps}` on success and the bare `{solved: false}`
object on every failure. -/
inductive Outcome where
  | solved (steps : Nat)
  | failed
  deriving DecidableEq

/-- `dx = [-1, 0, 1, 0]` indexed by direction (0=left, 1=up, 2=right, 3=down). -/
def dxA (dir : Nat) : Int := [(-1 : Int), 0, 1, 0].getD dir 0

/-- `dy = [0, -1, 0, 1]` indexed by direction. -/
def dyA (dir : Nat) : Int := [(0 : Int), -1, 0, 1].getD dir 0

/-- `board[y][x]` (all uses in the source are bounds-guarded or at the
robot's current position). -/
def cellAt (b : List (List Nat)) (x y : Int) : Nat :=
  (b.getD y.toNat []).getD x.toNat 0

/-- `board[y][x] = v`. -/
def setCell (b : List (List Nat)) (x y : Int) (v : Nat) : List (List Nat) :=
  b.set y.toNat ((b.getD y.toNat []).set x.toNat v)

/-- Color component of the tile under the robot: `board[y][x] % 4`. -/
def tileColor (s : VMState) : Nat :=
  cellAt s.board s.x s.y % 4

/-- `Paint{1,2,3}`: `board[y][x] = c + (board[y][x] > 3 ? 4 : 0)`. -/
def paintCell (b : List (List Nat)) (x y : Int) (c : Nat) : List (List Nat) :=
  setCell b x y (c + (if 3 < cellAt b x y then 4 else 0))

/-- The `while (steps < maxSteps && stack.length > 0)` loop of
`Solver.executeProgram`.  The fuel argument counts the remaining
step budget (`maxSteps - steps`); each iteration increments `steps`
by exactly one, so the budget decreases by exactly one. -/
def runLoop (prog : List (List Nat)) : Nat → VMState → Outcome
  | 0, s => if s.stars = 0 then .solved s.steps else .failed
  | fuel + 1, s =>
    match s.stack with
    | [] => if s.stars = 0 then .solved s.steps else .failed
    | instr :: rest =>
      if s.stars = 0 then .solved s.steps
      else if 100 < s.stack.length then .failed
      else
        let cond := instr / 100
        let opcode := instr % 100
        let s1 : VMState := { s with stack := rest, steps := s.steps + 1 }
        if cond ≠ 0 ∧ tileColor s ≠ cond then runLoop prog fuel s1
        else if opcode = 1 then
          let nx := s.x + dxA s.dir
          let ny := s.y + dyA s.dir
          if nx < 0 ∨ 16 ≤ nx ∨ ny < 0 ∨ 16 ≤ ny then .failed
          else
            let t := cellAt s.board nx ny
            if t = 0 then .failed
            else if 3 < t then
              runLoop prog fuel { s1 with
                x := nx
                y := ny
                board := setCell s.board nx ny (t - 4)
                stars := s.stars - 1 }
            else
              runLoop prog fuel { s1 with x := nx, y := ny }
        else if opcode = 2 then
          runLoop prog fuel { s1 with dir := (s.dir + 3) % 4 }
        else if opcode = 3 then
          runLoop prog fuel { s1 with dir := (s.dir + 1) % 4 }
        else if opcode = 4 then
          runLoop prog fuel { s1 with board := paintCell s.board s.x s.y 1 }
        else if opcode = 5 then
          runLoop prog fuel { s1 with board := paintCell s.board s.x s.y 2 }
        else if opcode = 6 then
          runLoop prog fuel { s1 with board := paintCell s.board s.x s.y 3 }
        else if opcode = 7 ∨ opcode = 8 ∨ opcode = 9 then
          if opcode - 7 < prog.length then
            runLoop prog fuel { s1 with stack := prog.getD (opcode - 7) [] ++ rest }
          else runLoop prog fuel s1
        else runLoop prog fuel s1

/-- The level data consumed by the VM (`levelData.player`, `.stars`,
`.board`). -/
structure Level where
  px : Int
  py : Int
  dir : Nat
  stars : Nat
  board : List (List Nat)
  deriving DecidableEq

/-- Initial VM state: program function 0 is loaded onto the execution
stack (`programFunctions[0] ? [...programFunctions[0]] : []`). -/
def initState (lv : Level) (prog : List (List Nat)) : VMState :=
  ⟨lv.px, lv.py, lv.dir, lv.stars, lv.board, prog.getD 0 [], 0⟩

/-- `Solver.executeProgram(levelData, programFunctions, maxSteps)`. -/
def executeProgram (lv : Level) (prog : List (List Nat)) (maxSteps : Nat) : Outcome :=
  runLoop prog maxSteps (initState lv prog)

/-! ### State hasher and loop-detecting VM (final-solver.js) -/

/-- The components combined by `FinalSolver.hashState` into the state
key string `x,y,dir,stars,stackPreview,boardHash`.  The string built by
the JS code is determined by these components, so the key is modelled as
the tuple itself (a collision of the string format could only make the
detector fire earlier, never later). -/
structure KeyLD where
  kx : Int
  ky : Int
  kdir : Nat
  kstars : Nat
  kpreview : List Nat
  kcells : List (Nat × Nat × Nat)
  deriving DecidableEq

/-- `FinalSolver.hashBoard`: the `(x, y, value)` data of every cell with
`board[y][x] > 0`, in row-major order. -/
def boardCells (b : List (List Nat)) : List (Nat × Nat × Nat) :=
  b.enum.flatMap fun r =>
    r.2.enum.filterMap fun c =>
      if 0 < c.2 then some (c.1, r.1, c.2) else none

/-- `FinalSolver.hashState`: position, direction, remaining stars, a
preview of the first 5 stack entries, and the board hash. -/
def stateKey (s : VMState) : KeyLD :=
  ⟨s.x, s.y, s.dir, s.stars, s.stack.take 5, boardCells s.board⟩

/-- Result value of `FinalSolver.executeWithLoopDetection`: the JS code
returns `{solved: true, steps}`, the bare `{solved: false}`, or
`{solved: false, loopDetected: true}`. -/
inductive OutcomeLD where
  | solved (steps : Nat)
  | failed
  | loopDetected
  deriving DecidableEq

/-- The `while (steps < maxSteps && stack.length > 0 && stack.length <= 100)`
loop of `FinalSolver.executeWithLoopDetection`, with the visited-key set
threaded through (`stateCache`). -/
def runLD (prog : List (List Nat)) : Nat → List KeyLD → VMState → OutcomeLD
  | 0, _, s => if s.stars = 0 then .solved s.steps else .failed
  | fuel + 1, cache, s =>
    match s.stack with
    | [] => if s.stars = 0 then .solved s.steps else .failed
    | instr :: rest =>
      if 100 < s.stack.length then
        (if s.stars = 0 then .solved s.steps else .failed)
      else if s.stars = 0 then .solved s.steps
      else if stateKey s ∈ cache then .loopDetected
      else
        let cache1 := stateKey s :: cache
        let cond := instr / 100
        let opcode := instr % 100
        let s1 : VMState := { s with stack := rest, steps := s.steps + 1 }
        if cond ≠ 0 ∧ tileColor s ≠ cond then runLD prog fuel cache1 s1
        else if opcode = 1 then
          let nx := s.x + dxA s.dir
          let ny := s.y + dyA s.dir
          if nx < 0 ∨ 16 ≤ nx ∨ ny < 0 ∨ 16 ≤ ny then .failed
          else
            let t := cellAt s.board nx ny
            if t = 0 then .failed
            else if 3 < t then
              runLD prog fuel cache1 { s1 with
                x := nx
                y := ny
                board := setCell s.board nx ny (t - 4)
                stars := s.stars - 1 }
            else
              runLD prog fuel cache1 { s1 with x := nx, y := ny }
        else if opcode = 2 then
          runLD prog fuel cache1 { s1 with dir := (s.dir + 3) % 4 }
        else if opcode = 3 then
          runLD prog fuel cache1 { s1 with dir := (s.dir + 1) % 4 }
        else if opcode = 4 then
          runLD prog fuel cache1 { s1 with board := paintCell s.board s.x s.y 1 }
        else if opcode = 5 then
          runLD prog fuel cache1 { s1 with board := paintCell s.board s.x s.y 2 }
        else if opcode = 6 then
          runLD prog fuel cache1 { s1 with board := paintCell s.board s.x s.y 3 }
        else if opcode = 7 ∨ opcode = 8 ∨ opcode = 9 then
          if opcode - 7 < prog.length ∧ prog.getD (opcode - 7) [] ≠ [] then
            runLD prog fuel cache1 { s1 with stack := prog.getD (opcode - 7) [] ++ rest }
          else runLD prog fuel cache1 s1
        else runLD prog fuel cache1 s1

/-- `FinalSolver.executeWithLoopDetection(levelData, programFunctions, maxSteps)`
(the cache is cleared on entry; the default step cap is 1000). -/
def executeWithLoopDetection (lv : Level) (prog : List (List Nat))
    (maxSteps : Nat) : OutcomeLD :=
  runLD prog maxSteps [] (initState lv prog)

/-! ### The interactive game engine (`GameEngine` class) -/

/-- `state.status` of the `GameEngine` (the `message` strings are UI-only
and not modelled). -/
inductive GEStatus where
  | ready
  | won
  | failed
  deriving DecidableEq

/-- Engine state for `GameEngine.step`. -/
structure GEState where
  x : Int
  y : Int
  dir : Nat
  stars : Nat
  board : List (List Nat)
  stack : List Nat
  steps : Nat
  status : GEStatus
  deriving DecidableEq

/-- Tile color at the engine's current position. -/
def geTileColor (s : GEState) : Nat :=
  cellAt s.board s.x s.y % 4

/-- `GameEngine.step()` (with `executeOpcode`, `moveForward`, `paintTile`
and `callFunction` inlined): returns the new state and the boolean the
JS method returns (`true` = can continue stepping). -/
def gameStep (prog : List (List Nat)) (s : GEState) : GEState × Bool :=
  if s.status = .won ∨ s.status = .failed then (s, false)
  else if s.stars = 0 then ({ s with status := .won }, false)
  else
    match s.stack with
    | [] => ({ s with status := .failed }, false)
    | instr :: rest =>
      if 100 < s.stack.length then ({ s with status := .failed }, false)
      else
        let cond := instr / 100
        let opcode := instr % 100
        let s1 : GEState := { s with stack := rest, steps := s.steps + 1 }
        if cond ≠ 0 ∧ geTileColor s ≠ cond then (s1, true)
        else if opcode = 0 then (s1, true)
        else if opcode = 1 then
          let nx := s.x + dxA s.dir
          let ny := s.y + dyA s.dir
          if nx < 0 ∨ 16 ≤ nx ∨ ny < 0 ∨ 16 ≤ ny then
            ({ s1 with status := .failed }, false)
          else
            let t := cellAt s.board nx ny
            if t = 0 then ({ s1 with status := .failed }, false)
            else if 3 < t then
              ({ s1 with
                x := nx
                y := ny
                board := setCell s.board nx ny (t - 4)
                stars := s.stars - 1 }, true)
            else ({ s1 with x := nx, y := ny }, true)
        else if opcode = 2 then ({ s1 with dir := (s.dir + 3) % 4 }, true)
        else if opcode = 3 then ({ s1 with dir := (s.dir + 1) % 4 }, true)
        else if opcode = 4 then ({ s1 with board := paintCell s.board s.x s.y 1 }, true)
        else if opcode = 5 then ({ s1 with board := paintCell s.board s.x s.y 2 }, true)
        else if opcode = 6 then ({ s1 with board := paintCell s.board s.x s.y 3 }, true)
        else if opcode = 7 ∨ opcode = 8 ∨ opcode = 9 then
          if opcode - 7 < prog.length then
            ({ s1 with stack := prog.getD (opcode - 7) [] ++ rest }, true)
          else ({ s1 with status := .failed }, false)
        else ({ s1 with status := .failed }, false)

/-! ### Constraint propagation (`ConstraintSolver`) -/

/-- The `Constraints` record carried by `ConstraintSolver.fillFunction`
(initially `{leftTurns: 0, rightTurns: 0, lastPaint: null, terminated: false}`;
the `noLeftTurn` / `noRightTurn` flags start out undefined = false). -/
structure Constraints where
  leftTurns : Nat
  rightTurns : Nat
  lastPaint : Option Nat
  noLeftTurn : Bool
  noRightTurn : Bool
  terminated : Bool
  deriving DecidableEq

/-- The initial constraints record. -/
def initConstraints : Constraints :=
  ⟨0, 0, none, false, false, false⟩

/-- `ConstraintSolver.propagateConstraints(constraints, instruction, pos, maxLen)`
(the `pos` and `maxLen` parameters are unused by its body). -/
def propagateConstraints (c : Constraints) (instruction : Nat)
    (_pos _maxLen : Nat) : Constraints :=
  let cond := instruction / 100
  let opcode := instruction % 100
  let c1 :=
    if cond = 0 ∧ (opcode = 7 ∨ opcode = 8 ∨ opcode = 9) then
      { c with terminated := true }
    else c
  let c2 :=
    if opcode = 4 then { c1 with lastPaint := some 1 }
    else if opcode = 5 then { c1 with lastPaint := some 2 }
    else if opcode = 6 then { c1 with lastPaint := some 3 }
    else c1
  if opcode = 2 then
    let c3 := { c2 with leftTurns := c2.leftTurns + 1, rightTurns := 0 }
    if 2 ≤ c3.leftTurns then { c3 with noRightTurn := true } else c3
  else if opcode = 3 then
    let c3 := { c2 with rightTurns := c2.rightTurns + 1, leftTurns := 0 }
    if 2 ≤ c3.rightTurns then { c3 with noLeftTurn := true } else c3
  else
    { c2 with
      leftTurns := 0
      rightTurns := 0
      noLeftTurn := false
      noRightTurn := false }

/-- `ConstraintSolver.getValidInstructions(constraints, allInstructions)`. -/
def getValidInstructions (c : Constraints) (all : List Nat) : List Nat :=
  if c.terminated then []
  else
    let v1 := if c.noLeftTurn then all.filter (fun i => ¬ i % 100 = 2) else all
    if c.noRightTurn then v1.filter (fun i => ¬ i % 100 = 3) else v1

/-! ### Candidate generation and iterative deepening (`FinalSolver`) -/

/-- The priority table of `FinalSolver.orderInstructions`:
`{1: 10, 2: 8, 3: 8, 7: 6, 8: 6, 4: 3, 5: 3, 6: 3}`, default 0. -/
def priorityOf (op : Nat) : Nat :=
  if op = 1 then 10
  else if op = 2 ∨ op = 3 then 8
  else if op = 7 ∨ op = 8 then 6
  else if op = 4 ∨ op = 5 ∨ op = 6 then 3
  else 0

/-- Insert `a` in front of the first element it may precede (stable
insertion step). -/
def insertBy (le : Nat → Nat → Bool) (a : Nat) : List Nat → List Nat
  | [] => [a]
  | b :: l => if le a b then a :: b :: l else b :: insertBy le a l

/-- Stable insertion sort (JS `Array.prototype.sort` is stable). -/
def sortBy (le : Nat → Nat → Bool) : List Nat → List Nat
  | [] => []
  | a :: l => insertBy le a (sortBy le l)

/-- `FinalSolver.orderInstructions`: at position 0 the instruction list
is stably sorted by descending opcode priority (the JS comparator
`priority[b] - priority[a]` under a stable sort); elsewhere it is used
as is. -/
def orderInstructions (instrs : List Nat) (pos : Nat) : List Nat :=
  if pos = 0 then
    sortBy (fun a b => priorityOf (b % 100) ≤ priorityOf (a % 100)) instrs
  else instrs

/-- `FinalSolver.isValidSequence(sequence, pos, funcIdx, funcLengths)`
(the last two parameters are unused by its body). -/
def isValidSequence (sequence : List Nat) (pos : Nat) : Bool :=
  if pos = 0 then true
  else
    let prev := sequence.getD (pos - 1) 0
    let curr := sequence.getD pos 0
    let prevOp := prev % 100
    let currOp := curr % 100
    if prev / 100 = 0 ∧ (prevOp = 7 ∨ prevOp = 8 ∨ prevOp = 9) then false
    else if 2 ≤ pos ∧
        ((sequence.getD (pos - 2) 0 % 100 = 2 ∧ prevOp = 2 ∧ currOp = 3) ∨
         (sequence.getD (pos - 2) 0 % 100 = 3 ∧ prevOp = 3 ∧ currOp = 2)) then
      false
    else true

/-- The depth-first enumeration performed by `FinalSolver.fillFunction`:
all extensions of `seq` by `n` further instructions, each extension step
drawn from `orderInstructions` and accepted by `isValidSequence`.  The JS
code tests candidates as it generates them; the model separates the
enumeration (this function) from the first-success search
(`searchDepthModel`), preserving the enumeration order. -/
def genSlotAux (instrs : List Nat) : Nat → List Nat → List (List Nat)
  | 0, seq => [seq]
  | n + 1, seq =>
    (orderInstructions instrs seq.length).flatMap fun i =>
      if isValidSequence (seq ++ [i]) seq.length then
        genSlotAux instrs n (seq ++ [i])
      else []

/-- The enumeration performed by `FinalSolver.searchDepth`: for each
function slot a length `0 ≤ len ≤ min budget (target - used)` is chosen
in ascending order, the slot is filled by `genSlotAux`, and a complete
program is kept when the lengths sum exactly to `target`. -/
def genFuncs (instrs : List Nat) (target : Nat) : List Nat → Nat → List (List (List Nat))
  | [], used => if used = target then [[]] else []
  | b :: bs, used =>
    (List.range (min b (target - used) + 1)).flatMap fun len =>
      (genSlotAux instrs len []).flatMap fun seq =>
        (genFuncs instrs target bs (used + len)).map fun rest => seq :: rest

/-- Total instruction count of a program (summed over all function slots). -/
def totalCount (p : List (List Nat)) : Nat :=
  (p.map List.length).sum

/-- `result.solved` of a loop-detecting VM run. -/
def isSolvedLD : OutcomeLD → Bool
  | .solved _ => true
  | _ => false

/-- `FinalSolver.searchDepth(levelData, instructions, funcLengths, targetTotal, _)`:
the first enumerated program of total count `targetTotal` that the VM
(with loop detection, step cap 1000) reports solved. -/
def searchDepthModel (lv : Level) (instrs budgets : List Nat) (target : Nat) :
    Option (List (List Nat)) :=
  (genFuncs instrs target budgets 0).find? fun p =>
    isSolvedLD (executeWithLoopDetection lv p 1000)

/-- `FinalSolver.solve` (pure part): iterative deepening on the total
instruction count `totalInstr = 1, …, min(Σ budgets, 10)`, returning the
first depth's first solution together with its depth.  The timeout and
cancellation checks of the JS code are not modelled. -/
def solveModel (lv : Level) (instrs budgets : List Nat) :
    Option (List (List Nat) × Nat) :=
  (List.range' 1 (min budgets.sum 10)).findSome? fun d =>
    (searchDepthModel lv instrs budgets d).map fun p => (p, d)

/-! ### Reference outcome classification following the spec's words

The spec describes `RunOutcome` as the tagged variant
`{Solved{steps}, Died{steps}, Exhausted, StepLimitReached}`.  To compare
the code's untagged result against this description, `runSpec` runs the
same per-step semantics as `runLoop` but classifies the termination
reason per the spec: stars-zero → Solved, empty stack → Exhausted,
stack over the 100 ceiling → Died, step cap → StepLimitReached, and a
`Forward` into a wall or void → Died. -/

/-- The spec's `RunOutcome` tagged variant. -/
inductive RunOutcomeSpec where
  | solvedS (steps : Nat)
  | diedS (steps : Nat)
  | exhaustedS
  | stepLimitS
  deriving DecidableEq

/-- Reference semantics following the spec's words (see section comment). -/
def runSpec (prog : List (List Nat)) : Nat → VMState → RunOutcomeSpec
  | 0, s =>
    if s.stars = 0 then .solvedS s.steps
    else if s.stack = [] then .exhaustedS
    else if 100 < s.stack.length then .diedS s.steps
    else .stepLimitS
  | fuel + 1, s =>
    if s.stars = 0 then .solvedS s.steps
    else
      match s.stack with
      | [] => .exhaustedS
      | instr :: rest =>
        if 100 < s.stack.length then .diedS s.steps
        else
          let cond := instr / 100
          let opcode := instr % 100
          let s1 : VMState := { s with stack := rest, steps := s.steps + 1 }
          if cond ≠ 0 ∧ tileColor s ≠ cond then runSpec prog fuel s1
          else if opcode = 1 then
            let nx := s.x + dxA s.dir
            let ny := s.y + dyA s.dir
            if nx < 0 ∨ 16 ≤ nx ∨ ny < 0 ∨ 16 ≤ ny then .diedS s1.steps
            else
              let t := cellAt s.board nx ny
              if t = 0 then .diedS s1.steps
              else if 3 < t then
                runSpec prog fuel { s1 with
                  x := nx
                  y := ny
                  board := setCell s.board nx ny (t - 4)
                  stars := s.stars - 1 }
              else
                runSpec prog fuel { s1 with x := nx, y := ny }
          else if opcode = 2 then
            runSpec prog fuel { s1 with dir := (s.dir + 3) % 4 }
          else if opcode = 3 then
            runSpec prog fuel { s1 with dir := (s.dir + 1) % 4 }
          else if opcode = 4 then
            runSpec prog fuel { s1 with board := paintCell s.board s.x s.y 1 }
          else if opcode = 5 then
            runSpec prog fuel { s1 with board := paintCell s.board s.x s.y 2 }
          else if opcode = 6 then
            runSpec prog fuel { s1 with board := paintCell s.board s.x s.y 3 }
          else if opcode = 7 ∨ opcode = 8 ∨ opcode = 9 then
            if opcode - 7 < prog.length then
              runSpec prog fuel { s1 with stack := prog.getD (opcode - 7) [] ++ rest }
            else runSpec prog fuel s1
          else runSpec prog fuel s1

/-- Spec-side classification of a whole run. -/
def specRun (lv : Level) (prog : List (List Nat)) (maxSteps : Nat) : RunOutcomeSpec :=
  runSpec prog maxSteps (initState lv prog)

/-- A small level used to compare failing runs: the robot starts at
(0,0) facing left (direction 0) with one star at (1,0). -/
def cexLevel : Level :=
  ⟨0, 0, 0, 1, [[1, 5]]⟩

/-! ### Step lemmas for the plain VM loop -/

theorem runLoop_stars_zero (prog : List (List Nat)) (fuel : Nat) (s : VMState)
    (h : s.stars = 0) : runLoop prog fuel s = .solved s.steps := by
  cases fuel with
  | zero => simp [runLoop, h]
  | succ n =>
    cases hstk : s.stack with
    | nil => simp [runLoop, hstk, h]
    | cons i rest => simp [runLoop, hstk, h]

theorem runLoop_exhausted (prog : List (List Nat)) (fuel : Nat) (s : VMState)
    (h : s.stars ≠ 0) (hstk : s.stack = []) : runLoop prog fuel s = .failed := by
  cases fuel with
  | zero => simp [runLoop, h]
  | succ n => simp [runLoop, hstk, h]

theorem runLoop_cap (prog : List (List Nat)) (s : VMState)
    (h : s.stars ≠ 0) : runLoop prog 0 s = .failed := by
  simp [runLoop, h]

theorem runLoop_overflow (prog : List (List Nat)) (fuel : Nat) (s : VMState)
    (h : s.stars ≠ 0) (hlen : 100 < s.stack.length) :
    runLoop prog (fuel + 1) s = .failed := by
  cases hstk : s.stack with
  | nil => rw [hstk] at hlen; simp at hlen
  | cons i rest =>
    rw [hstk] at hlen
    simp only [runLoop, hstk]
    rw [if_neg h, if_pos hlen]

theorem runLoop_guard_skip (prog : List (List Nat)) (fuel : Nat)
    (x y : Int) (d st : Nat) (b : List (List Nat)) (i : Nat) (rest : List Nat)
    (steps : Nat) (hst : st ≠ 0) (hlen : rest.length ≤ 99)
    (hc : i / 100 ≠ 0) (hm : cellAt b x y % 4 ≠ i / 100) :
    runLoop prog (fuel + 1) ⟨x, y, d, st, b, i :: rest, steps⟩ =
      runLoop prog fuel ⟨x, y, d, st, b, rest, steps + 1⟩ := by
  simp only [runLoop, List.length_cons, tileColor]
  rw [if_neg hst, if_neg (by omega : ¬ 100 < rest.length + 1), if_pos ⟨hc, hm⟩]

/-- The instruction executes (no condition, or the condition matches). -/
def guardPasses (b : List (List Nat)) (x y : Int) (i : Nat) : Prop :=
  i / 100 = 0 ∨ cellAt b x y % 4 = i / 100

theorem not_guard_skip {b : List (List Nat)} {x y : Int} {i : Nat}
    (hg : guardPasses b x y i) :
    ¬ (i / 100 ≠ 0 ∧ cellAt b x y % 4 ≠ i / 100) := by
  rcases hg with h | h
  · exact fun hh => hh.1 h
  · exact fun hh => hh.2 h

theorem runLoop_fw_dead (prog : List (List Nat)) (fuel : Nat)
    (x y : Int) (d st : Nat) (b : List (List Nat)) (i : Nat) (rest : List Nat)
    (steps : Nat) (hst : st ≠ 0) (hlen : rest.length ≤ 99)
    (hop : i % 100 = 1) (hg : guardPasses b x y i)
    (hdead : (x + dxA d < 0 ∨ 16 ≤ x + dxA d ∨ y + dyA d < 0 ∨ 16 ≤ y + dyA d) ∨
      cellAt b (x + dxA d) (y + dyA d) = 0) :
    runLoop prog (fuel + 1) ⟨x, y, d, st, b, i :: rest, steps⟩ = .failed := by
  simp only [runLoop, List.length_cons, tileColor]
  rw [if_neg hst, if_neg (by omega : ¬ 100 < rest.length + 1),
    if_neg (not_guard_skip hg), if_pos hop]
  rcases hdead with hoob | hvoid
  · rw [if_pos hoob]
  · by_cases hoob : x + dxA d < 0 ∨ 16 ≤ x + dxA d ∨ y + dyA d < 0 ∨ 16 ≤ y + dyA d
    · rw [if_pos hoob]
    · rw [if_neg hoob, if_pos hvoid]

theorem runLoop_fw_plain (prog : List (List Nat)) (fuel : Nat)
    (x y : Int) (d st : Nat) (b : List (List Nat)) (i : Nat) (rest : List Nat)
    (steps : Nat) (hst : st ≠ 0) (hlen : rest.length ≤ 99)
    (hop : i % 100 = 1) (hg : guardPasses b x y i)
    (hin : ¬ (x + dxA d < 0 ∨ 16 ≤ x + dxA d ∨ y + dyA d < 0 ∨ 16 ≤ y + dyA d))
    (ht0 : cellAt b (x + dxA d) (y + dyA d) ≠ 0)
    (hts : ¬ 3 < cellAt b (x + dxA d) (y + dyA d)) :
    runLoop prog (fuel + 1) ⟨x, y, d, st, b, i :: rest, steps⟩ =
      runLoop prog fuel ⟨x + dxA d, y + dyA d, d, st, b, rest, steps + 1⟩ := by
  simp only [runLoop, List.length_cons, tileColor]
  rw [if_neg hst, if_neg (by omega : ¬ 100 < rest.length + 1),
    if_neg (not_guard_skip hg), if_pos hop, if_neg hin, if_neg ht0, if_neg hts]

theorem runLoop_fw_star (prog : List (List Nat)) (fuel : Nat)
    (x y : Int) (d st : Nat) (b : List (List Nat)) (i : Nat) (rest : List Nat)
    (steps : Nat) (hst : st ≠ 0) (hlen : rest.length ≤ 99)
    (hop : i % 100 = 1) (hg : guardPasses b x y i)
    (hin : ¬ (x + dxA d < 0 ∨ 16 ≤ x + dxA d ∨ y + dyA d < 0 ∨ 16 ≤ y + dyA d))
    (hts : 3 < cellAt b (x + dxA d) (y + dyA d)) :
    runLoop prog (fuel + 1) ⟨x, y, d, st, b, i :: rest, steps⟩ =
      runLoop prog fuel ⟨x + dxA d, y + dyA d, d, st - 1,
        setCell b (x + dxA d) (y + dyA d) (cellAt b (x + dxA d) (y + dyA d) - 4),
        rest, steps + 1⟩ := by
  simp only [runLoop, List.length_cons, tileColor]
  rw [if_neg hst, if_neg (by omega : ¬ 100 < rest.length + 1),
    if_neg (not_guard_skip hg), if_pos hop, if_neg hin,
    if_neg (by omega : ¬ cellAt b (x + dxA d) (y + dyA d) = 0), if_pos hts]

theorem runLoop_turnL (prog : List (List Nat)) (fuel : Nat)
    (x y : Int) (d st : Nat) (b : List (List Nat)) (i : Nat) (rest : List Nat)
    (steps : Nat) (hst : st ≠ 0) (hlen : rest.length ≤ 99)
    (hop : i % 100 = 2) (hg : guardPasses b x y i) :
    runLoop prog (fuel + 1) ⟨x, y, d, st, b, i :: rest, steps⟩ =
      runLoop prog fuel ⟨x, y, (d + 3) % 4, st, b, rest, steps + 1⟩ := by
  simp only [runLoop, List.length_cons, tileColor, hop]
  rw [if_neg hst, if_neg (by omega : ¬ 100 < rest.length + 1),
    if_neg (not_guard_skip hg)]
  norm_num

theorem runLoop_turnR (prog : List (List Nat)) (fuel : Nat)
    (x y : Int) (d st : Nat) (b : List (List Nat)) (i : Nat) (rest : List Nat)
    (steps : Nat) (hst : st ≠ 0) (hlen : rest.length ≤ 99)
    (hop : i % 100 = 3) (hg : guardPasses b x y i) :
    runLoop prog (fuel + 1) ⟨x, y, d, st, b, i :: rest, steps⟩ =
      runLoop prog fuel ⟨x, y, (d + 1) % 4, st, b, rest, steps + 1⟩ := by
  simp only [runLoop, List.length_cons, tileColor, hop]
  rw [if_neg hst, if_neg (by omega : ¬ 100 < rest.length + 1),
    if_neg (not_guard_skip hg)]
  norm_num

theorem runLoop_call (prog : List (List Nat)) (fuel : Nat)
    (x y : Int) (d st : Nat) (b : List (List Nat)) (i n : Nat) (rest : List Nat)
    (steps : Nat) (hst : st ≠ 0) (hlen : rest.length ≤ 99)
    (hop : i % 100 = 7 + n) (hn : n < 3) (hg : guardPasses b x y i)
    (hlt : n < prog.length) :
    runLoop prog (fuel + 1) ⟨x, y, d, st, b, i :: rest, steps⟩ =
      runLoop prog fuel ⟨x, y, d, st, b, prog.getD n [] ++ rest, steps + 1⟩ := by
  simp only [runLoop, List.length_cons, tileColor, hop]
  rw [if_neg hst, if_neg (by omega : ¬ 100 < rest.length + 1),
    if_neg (not_guard_skip hg)]
  rw [if_neg (by omega : ¬ 7 + n = 1), if_neg (by omega : ¬ 7 + n = 2),
    if_neg (by omega : ¬ 7 + n = 3), if_neg (by omega : ¬ 7 + n = 4),
    if_neg (by omega : ¬ 7 + n = 5), if_neg (by omega : ¬ 7 + n = 6),
    if_pos (by omega : 7 + n = 7 ∨ 7 + n = 8 ∨ 7 + n = 9)]
  rw [show 7 + n - 7 = n from by omega]
  rw [if_pos hlt]

theorem runLoop_call_missing (prog : List (List Nat)) (fuel : Nat)
    (x y : Int) (d st : Nat) (b : List (List Nat)) (i n : Nat) (rest : List Nat)
    (steps : Nat) (hst : st ≠ 0) (hlen : rest.length ≤ 99)
    (hop : i % 100 = 7 + n) (hn : n < 3) (hg : guardPasses b x y i)
    (hge : ¬ n < prog.length) :
    runLoop prog (fuel + 1) ⟨x, y, d, st, b, i :: rest, steps⟩ =
      runLoop prog fuel ⟨x, y, d, st, b, rest, steps + 1⟩ := by
  simp only [runLoop, List.length_cons, tileColor, hop]
  rw [if_neg hst, if_neg (by omega : ¬ 100 < rest.length + 1),
    if_neg (not_guard_skip hg)]
  rw [if_neg (by omega : ¬ 7 + n = 1), if_neg (by omega : ¬ 7 + n = 2),
    if_neg (by omega : ¬ 7 + n = 3), if_neg (by omega : ¬ 7 + n = 4),
    if_neg (by omega : ¬ 7 + n = 5), if_neg (by omega : ¬ 7 + n = 6),
    if_pos (by omega : 7 + n = 7 ∨ 7 + n = 8 ∨ 7 + n = 9)]
  rw [show 7 + n - 7 = n from by omega]
  rw [if_neg hge]

/-! ### Step lemmas for the loop-detecting VM -/

theorem runLD_loop_hit (prog : List (List Nat)) (fuel : Nat) (cache : List KeyLD)
    (x y : Int) (d st : Nat) (b : List (List Nat)) (i : Nat) (rest : List Nat)
    (steps : Nat) (hst : st ≠ 0) (hlen : rest.length ≤ 99)
    (hmem : stateKey ⟨x, y, d, st, b, i :: rest, steps⟩ ∈ cache) :
    runLD prog (fuel + 1) cache ⟨x, y, d, st, b, i :: rest, steps⟩ = .loopDetected := by
  simp only [runLD, List.length_cons]
  rw [if_neg (by omega : ¬ 100 < rest.length + 1), if_neg hst, if_pos hmem]

theorem runLD_tl (prog : List (List Nat)) (fuel : Nat) (cache : List KeyLD)
    (x y : Int) (d st : Nat) (b : List (List Nat)) (i : Nat) (rest : List Nat)
    (steps : Nat) (hst : st ≠ 0) (hlen : rest.length ≤ 99)
    (hop : i % 100 = 2) (hg : guardPasses b x y i)
    (hmem : stateKey ⟨x, y, d, st, b, i :: rest, steps⟩ ∉ cache) :
    runLD prog (fuel + 1) cache ⟨x, y, d, st, b, i :: rest, steps⟩ =
      runLD prog fuel (stateKey ⟨x, y, d, st, b, i :: rest, steps⟩ :: cache)
        ⟨x, y, (d + 3) % 4, st, b, rest, steps + 1⟩ := by
  simp only [runLD, List.length_cons, tileColor, hop]
  rw [if_neg (by omega : ¬ 100 < rest.length + 1), if_neg hst, if_neg hmem,
    if_neg (not_guard_skip hg)]
  norm_num

theorem runLD_call (prog : List (List Nat)) (fuel : Nat) (cache : List KeyLD)
    (x y : Int) (d st : Nat) (b : List (List Nat)) (i n : Nat) (rest : List Nat)
    (steps : Nat) (hst : st ≠ 0) (hlen : rest.length ≤ 99)
    (hop : i % 100 = 7 + n) (hn : n < 3) (hg : guardPasses b x y i)
    (hlt : n < prog.length) (hne : prog.getD n [] ≠ [])
    (hmem : stateKey ⟨x, y, d, st, b, i :: rest, steps⟩ ∉ cache) :
    runLD prog (fuel + 1) cache ⟨x, y, d, st, b, i :: rest, steps⟩ =
      runLD prog fuel (stateKey ⟨x, y, d, st, b, i :: rest, steps⟩ :: cache)
        ⟨x, y, d, st, b, prog.getD n [] ++ rest, steps + 1⟩ := by
  simp only [runLD, List.length_cons, tileColor, hop]
  rw [if_neg (by omega : ¬ 100 < rest.length + 1), if_neg hst, if_neg hmem,
    if_neg (not_guard_skip hg)]
  rw [if_neg (by omega : ¬ 7 + n = 1), if_neg (by omega : ¬ 7 + n = 2),
    if_neg (by omega : ¬ 7 + n = 3), if_neg (by omega : ¬ 7 + n = 4),
    if_neg (by omega : ¬ 7 + n = 5), if_neg (by omega : ¬ 7 + n = 6),
    if_pos (by omega : 7 + n = 7 ∨ 7 + n = 8 ∨ 7 + n = 9)]
  rw [show 7 + n - 7 = n from by omega]
  rw [if_pos ⟨hlt, hne⟩]

/-- The pure rotation recursion `F0 = [TurnLeft, Call0]` revisits its
starting state key after eight steps, so the loop detector fires within
nine iterations whatever the position, board and (non-zero) star count
are.  `d1, d2, d3` name the successive directions. -/
theorem rotationLoopAux (fuel : Nat) (x y : Int) (st : Nat) (b : List (List Nat))
    (d d1 d2 d3 : Nat) (hst : st ≠ 0)
    (e1 : (d + 3) % 4 = d1) (e2 : (d1 + 3) % 4 = d2) (e3 : (d2 + 3) % 4 = d3)
    (e4 : (d3 + 3) % 4 = d)
    (n1 : d1 ≠ d) (n2 : d2 ≠ d) (n3 : d3 ≠ d)
    (n21 : d2 ≠ d1) (n31 : d3 ≠ d1) (n32 : d3 ≠ d2) :
    runLD [[2, 7]] (fuel + 9) [] ⟨x, y, d, st, b, [2, 7], 0⟩ = .loopDetected := by
  have m1 : d1 ≠ d := n1
  have m2 : d2 ≠ d := n2
  have m3 : d3 ≠ d := n3
  have m1s : d ≠ d1 := fun h => n1 h.symm
  have m2s : d ≠ d2 := fun h => n2 h.symm
  have m3s : d ≠ d3 := fun h => n3 h.symm
  have step1 := runLD_tl [[2, 7]] (fuel + 8) [] x y d st b 2 [7] 0 hst (by decide)
    rfl (Or.inl rfl) (by simp)
  rw [e1] at step1
  have step2 := runLD_call [[2, 7]] (fuel + 7)
    [stateKey ⟨x, y, d, st, b, [2, 7], 0⟩]
    x y d1 st b 7 0 [] 1 hst
    (by decide) rfl (by decide) (Or.inl rfl) (by decide) (by decide)
    (by simp [stateKey, m1])
  have step3 := runLD_tl [[2, 7]] (fuel + 6)
    [stateKey ⟨x, y, d1, st, b, [7], 1⟩, stateKey ⟨x, y, d, st, b, [2, 7], 0⟩]
    x y d1 st b 2 [7] 2 hst (by decide)
    rfl (Or.inl rfl) (by simp [stateKey, m1])
  rw [e2] at step3
  have step4 := runLD_call [[2, 7]] (fuel + 5)
    [stateKey ⟨x, y, d1, st, b, [2, 7], 2⟩, stateKey ⟨x, y, d1, st, b, [7], 1⟩,
      stateKey ⟨x, y, d, st, b, [2, 7], 0⟩]
    x y d2 st b 7 0 [] 3 hst
    (by decide) rfl (by decide) (Or.inl rfl) (by decide) (by decide)
    (by simp [stateKey, m2, n21])
  have step5 := runLD_tl [[2, 7]] (fuel + 4)
    [stateKey ⟨x, y, d2, st, b, [7], 3⟩, stateKey ⟨x, y, d1, st, b, [2, 7], 2⟩,
      stateKey ⟨x, y, d1, st, b, [7], 1⟩, stateKey ⟨x, y, d, st, b, [2, 7], 0⟩]
    x y d2 st b 2 [7] 4 hst (by decide)
    rfl (Or.inl rfl) (by simp [stateKey, m2, n21])
  rw [e3] at step5
  have step6 := runLD_call [[2, 7]] (fuel + 3)
    [stateKey ⟨x, y, d2, st, b, [2, 7], 4⟩, stateKey ⟨x, y, d2, st, b, [7], 3⟩,
      stateKey ⟨x, y, d1, st, b, [2, 7], 2⟩, stateKey ⟨x, y, d1, st, b, [7], 1⟩,
      stateKey ⟨x, y, d, st, b, [2, 7], 0⟩]
    x y d3 st b 7 0 [] 5 hst
    (by decide) rfl (by decide) (Or.inl rfl) (by decide) (by decide)
    (by simp [stateKey, m3, n31, n32])
  have step7 := runLD_tl [[2, 7]] (fuel + 2)
    [stateKey ⟨x, y, d3, st, b, [7], 5⟩, stateKey ⟨x, y, d2, st, b, [2, 7], 4⟩,
      stateKey ⟨x, y, d2, st, b, [7], 3⟩, stateKey ⟨x, y, d1, st, b, [2, 7], 2⟩,
      stateKey ⟨x, y, d1, st, b, [7], 1⟩, stateKey ⟨x, y, d, st, b, [2, 7], 0⟩]
    x y d3 st b 2 [7] 6 hst (by decide)
    rfl (Or.inl rfl) (by simp [stateKey, m3, n31, n32])
  rw [e4] at step7
  have step8 := runLD_call [[2, 7]] (fuel + 1)
    [stateKey ⟨x, y, d3, st, b, [2, 7], 6⟩, stateKey ⟨x, y, d3, st, b, [7], 5⟩,
      stateKey ⟨x, y, d2, st, b, [2, 7], 4⟩, stateKey ⟨x, y, d2, st, b, [7], 3⟩,
      stateKey ⟨x, y, d1, st, b, [2, 7], 2⟩, stateKey ⟨x, y, d1, st, b, [7], 1⟩,
      stateKey ⟨x, y, d, st, b, [2, 7], 0⟩]
    x y d st b 7 0 [] 7 hst
    (by decide) rfl (by decide) (Or.inl rfl) (by decide) (by decide)
    (by simp [stateKey, m1s, m2s, m3s])
  have step9 := runLD_loop_hit [[2, 7]] fuel
    [stateKey ⟨x, y, d, st, b, [7], 7⟩, stateKey ⟨x, y, d3, st, b, [2, 7], 6⟩,
      stateKey ⟨x, y, d3, st, b, [7], 5⟩, stateKey ⟨x, y, d2, st, b, [2, 7], 4⟩,
      stateKey ⟨x, y, d2, st, b, [7], 3⟩, stateKey ⟨x, y, d1, st, b, [2, 7], 2⟩,
      stateKey ⟨x, y, d1, st, b, [7], 1⟩, stateKey ⟨x, y, d, st, b, [2, 7], 0⟩]
    x y d st b 2 [7] 8 hst (by decide)
    (by simp [stateKey])
  exact step1.trans (step2.trans (step3.trans (step4.trans (step5.trans
    (step6.trans (step7.trans (step8.trans step9)))))))

/-! ### The five-tiles-ahead scenario for the program `F0 = [Forward, Call0]` -/

section FiveAhead

variable (fuel : Nat) (x y : Int) (d : Nat) (b : List (List Nat))

/-- First eight steps of `F0 = [FW, F0]` (codes `[1, 7]`): four Forward
moves interleaved with four Call0 prepends; the star five tiles ahead is
not yet reached, so eight steps of budget end in failure. -/
theorem fiveAheadEight
    (hb1 : ¬ (x + dxA d < 0 ∨ 16 ≤ x + dxA d ∨ y + dyA d < 0 ∨ 16 ≤ y + dyA d))
    (hb2 : ¬ (x + dxA d + dxA d < 0 ∨ 16 ≤ x + dxA d + dxA d ∨
      y + dyA d + dyA d < 0 ∨ 16 ≤ y + dyA d + dyA d))
    (hb3 : ¬ (x + dxA d + dxA d + dxA d < 0 ∨ 16 ≤ x + dxA d + dxA d + dxA d ∨
      y + dyA d + dyA d + dyA d < 0 ∨ 16 ≤ y + dyA d + dyA d + dyA d))
    (hb4 : ¬ (x + dxA d + dxA d + dxA d + dxA d < 0 ∨
      16 ≤ x + dxA d + dxA d + dxA d + dxA d ∨
      y + dyA d + dyA d + dyA d + dyA d < 0 ∨
      16 ≤ y + dyA d + dyA d + dyA d + dyA d))
    (hc1 : cellAt b (x + dxA d) (y + dyA d) ≠ 0 ∧
      ¬ 3 < cellAt b (x + dxA d) (y + dyA d))
    (hc2 : cellAt b (x + dxA d + dxA d) (y + dyA d + dyA d) ≠ 0 ∧
      ¬ 3 < cellAt b (x + dxA d + dxA d) (y + dyA d + dyA d))
    (hc3 : cellAt b (x + dxA d + dxA d + dxA d) (y + dyA d + dyA d + dyA d) ≠ 0 ∧
      ¬ 3 < cellAt b (x + dxA d + dxA d + dxA d) (y + dyA d + dyA d + dyA d))
    (hc4 : cellAt b (x + dxA d + dxA d + dxA d + dxA d)
        (y + dyA d + dyA d + dyA d + dyA d) ≠ 0 ∧
      ¬ 3 < cellAt b (x + dxA d + dxA d + dxA d + dxA d)
        (y + dyA d + dyA d + dyA d + dyA d)) :
    runLoop [[1, 7]] (fuel + 8) ⟨x, y, d, 1, b, [1, 7], 0⟩ =
      runLoop [[1, 7]] fuel
        ⟨x + dxA d + dxA d + dxA d + dxA d, y + dyA d + dyA d + dyA d + dyA d,
          d, 1, b, [1, 7], 8⟩ :=
  calc runLoop [[1, 7]] (fuel + 8) ⟨x, y, d, 1, b, [1, 7], 0⟩
      = runLoop [[1, 7]] (fuel + 7) ⟨x + dxA d, y + dyA d, d, 1, b, [7], 1⟩ :=
        runLoop_fw_plain [[1, 7]] (fuel + 7) x y d 1 b 1 [7] 0 one_ne_zero
          (by decide) rfl (Or.inl rfl) hb1 hc1.1 hc1.2
    _ = runLoop [[1, 7]] (fuel + 6) ⟨x + dxA d, y + dyA d, d, 1, b, [1, 7], 2⟩ :=
        runLoop_call [[1, 7]] (fuel + 6) (x + dxA d) (y + dyA d) d 1 b 7 0 [] 1
          one_ne_zero (by decide) rfl (by decide) (Or.inl rfl) (by decide)
    _ = runLoop [[1, 7]] (fuel + 5)
          ⟨x + dxA d + dxA d, y + dyA d + dyA d, d, 1, b, [7], 3⟩ :=
        runLoop_fw_plain [[1, 7]] (fuel + 5) (x + dxA d) (y + dyA d) d 1 b 1 [7] 2
          one_ne_zero (by decide) rfl (Or.inl rfl) hb2 hc2.1 hc2.2
    _ = runLoop [[1, 7]] (fuel + 4)
          ⟨x + dxA d + dxA d, y + dyA d + dyA d, d, 1, b, [1, 7], 4⟩ :=
        runLoop_call [[1, 7]] (fuel + 4) (x + dxA d + dxA d) (y + dyA d + dyA d)
          d 1 b 7 0 [] 3 one_ne_zero (by decide) rfl (by decide) (Or.inl rfl)
          (by decide)
    _ = runLoop [[1, 7]] (fuel + 3)
          ⟨x + dxA d + dxA d + dxA d, y + dyA d + dyA d + dyA d, d, 1, b, [7], 5⟩ :=
        runLoop_fw_plain [[1, 7]] (fuel + 3) (x + dxA d + dxA d) (y + dyA d + dyA d)
          d 1 b 1 [7] 4 one_ne_zero (by decide) rfl (Or.inl rfl) hb3 hc3.1 hc3.2
    _ = runLoop [[1, 7]] (fuel + 2)
          ⟨x + dxA d + dxA d + dxA d, y + dyA d + dyA d + dyA d, d, 1, b, [1, 7], 6⟩ :=
        runLoop_call [[1, 7]] (fuel + 2) (x + dxA d + dxA d + dxA d)
          (y + dyA d + dyA d + dyA d) d 1 b 7 0 [] 5 one_ne_zero (by decide) rfl
          (by decide) (Or.inl rfl) (by decide)
    _ = runLoop [[1, 7]] (fuel + 1)
          ⟨x + dxA d + dxA d + dxA d + dxA d, y + dyA d + dyA d + dyA d + dyA d,
            d, 1, b, [7], 7⟩ :=
        runLoop_fw_plain [[1, 7]] (fuel + 1) (x + dxA d + dxA d + dxA d)
          (y + dyA d + dyA d + dyA d) d 1 b 1 [7] 6 one_ne_zero (by decide) rfl
          (Or.inl rfl) hb4 hc4.1 hc4.2
    _ = runLoop [[1, 7]] fuel
          ⟨x + dxA d + dxA d + dxA d + dxA d, y + dyA d + dyA d + dyA d + dyA d,
            d, 1, b, [1, 7], 8⟩ :=
        runLoop_call [[1, 7]] fuel (x + dxA d + dxA d + dxA d + dxA d)
          (y + dyA d + dyA d + dyA d + dyA d) d 1 b 7 0 [] 7 one_ne_zero
          (by decide) rfl (by decide) (Or.inl rfl) (by decide)

end FiveAhead

/-! ### Claim theorems -/

/-- C1: call-as-prepend semantics.  First conjunct: popping an
unconditional `Call n` (code `i` with `i / 100 = 0`, `i % 100 = 7 + n`)
for a defined function slot prepends that slot's entire body to the
front of the execution stack and execution continues from that front.
Second conjunct: on any level whose single star sits five tiles straight
ahead of the robot on non-void star-free tiles, the program
`F0 = [Forward, Call0]` (codes `[[1, 7]]`) is Solved; the star count
reaches zero exactly at the fifth Forward movement — the raw step count
is 9 > 5 (a budget of 8 raw steps is not yet solved, a budget of 9 is). -/
theorem C1_call_prepend_semantics :
    (∀ (prog : List (List Nat)) (fuel : Nat) (x y : Int) (d st : Nat)
      (b : List (List Nat)) (i n : Nat) (rest : List Nat) (steps : Nat),
      st ≠ 0 → rest.length ≤ 99 → i / 100 = 0 → i % 100 = 7 + n → n < 3 →
      n < prog.length →
      runLoop prog (fuel + 1) ⟨x, y, d, st, b, i :: rest, steps⟩ =
        runLoop prog fuel ⟨x, y, d, st, b, prog.getD n [] ++ rest, steps + 1⟩) ∧
    (∀ (x y : Int) (d : Nat) (b : List (List Nat)),
      ¬ (x + dxA d < 0 ∨ 16 ≤ x + dxA d ∨ y + dyA d < 0 ∨ 16 ≤ y + dyA d) →
      ¬ (x + dxA d + dxA d < 0 ∨ 16 ≤ x + dxA d + dxA d ∨
        y + dyA d + dyA d < 0 ∨ 16 ≤ y + dyA d + dyA d) →
      ¬ (x + dxA d + dxA d + dxA d < 0 ∨ 16 ≤ x + dxA d + dxA d + dxA d ∨
        y + dyA d + dyA d + dyA d < 0 ∨ 16 ≤ y + dyA d + dyA d + dyA d) →
      ¬ (x + dxA d + dxA d + dxA d + dxA d < 0 ∨
        16 ≤ x + dxA d + dxA d + dxA d + dxA d ∨
        y + dyA d + dyA d + dyA d + dyA d < 0 ∨
        16 ≤ y + dyA d + dyA d + dyA d + dyA d) →
      ¬ (x + dxA d + dxA d + dxA d + dxA d + dxA d < 0 ∨
        16 ≤ x + dxA d + dxA d + dxA d + dxA d + dxA d ∨
        y + dyA d + dyA d + dyA d + dyA d + dyA d < 0 ∨
        16 ≤ y + dyA d + dyA d + dyA d + dyA d + dyA d) →
      (cellAt b (x + dxA d) (y + dyA d) ≠ 0 ∧
        ¬ 3 < cellAt b (x + dxA d) (y + dyA d)) →
      (cellAt b (x + dxA d + dxA d) (y + dyA d + dyA d) ≠ 0 ∧
        ¬ 3 < cellAt b (x + dxA d + dxA d) (y + dyA d + dyA d)) →
      (cellAt b (x + dxA d + dxA d + dxA d) (y + dyA d + dyA d + dyA d) ≠ 0 ∧
        ¬ 3 < cellAt b (x + dxA d + dxA d + dxA d) (y + dyA d + dyA d + dyA d)) →
      (cellAt b (x + dxA d + dxA d + dxA d + dxA d)
          (y + dyA d + dyA d + dyA d + dyA d) ≠ 0 ∧
        ¬ 3 < cellAt b (x + dxA d + dxA d + dxA d + dxA d)
          (y + dyA d + dyA d + dyA d + dyA d)) →
      3 < cellAt b (x + dxA d + dxA d + dxA d + dxA d + dxA d)
        (y + dyA d + dyA d + dyA d + dyA d + dyA d) →
      (executeProgram ⟨x, y, d, 1, b⟩ [[1, 7]] 10000 = .solved 9 ∧
        executeProgram ⟨x, y, d, 1, b⟩ [[1, 7]] 9 = .solved 9 ∧
        executeProgram ⟨x, y, d, 1, b⟩ [[1, 7]] 8 = .failed)) := by
  constructor
  · intro prog fuel x y d st b i n rest steps hst hlen hcnd hop hn hlt
    exact runLoop_call prog fuel x y d st b i n rest steps hst hlen hop hn
      (Or.inl hcnd) hlt
  · intro x y d b hb1 hb2 hb3 hb4 hb5 hc1 hc2 hc3 hc4 hstar
    have core : ∀ fuel : Nat,
        runLoop [[1, 7]] (fuel + 9) ⟨x, y, d, 1, b, [1, 7], 0⟩ = .solved 9 := by
      intro fuel
      calc runLoop [[1, 7]] (fuel + 9) ⟨x, y, d, 1, b, [1, 7], 0⟩
          = runLoop [[1, 7]] (fuel + 1)
              ⟨x + dxA d + dxA d + dxA d + dxA d,
                y + dyA d + dyA d + dyA d + dyA d, d, 1, b, [1, 7], 8⟩ :=
            fiveAheadEight (fuel + 1) x y d b hb1 hb2 hb3 hb4 hc1 hc2 hc3 hc4
        _ = runLoop [[1, 7]] fuel
              ⟨x + dxA d + dxA d + dxA d + dxA d + dxA d,
                y + dyA d + dyA d + dyA d + dyA d + dyA d, d, 0,
                setCell b (x + dxA d + dxA d + dxA d + dxA d + dxA d)
                  (y + dyA d + dyA d + dyA d + dyA d + dyA d)
                  (cellAt b (x + dxA d + dxA d + dxA d + dxA d + dxA d)
                    (y + dyA d + dyA d + dyA d + dyA d + dyA d) - 4),
                [7], 9⟩ :=
            runLoop_fw_star [[1, 7]] fuel (x + dxA d + dxA d + dxA d + dxA d)
              (y + dyA d + dyA d + dyA d + dyA d) d 1 b 1 [7] 8 one_ne_zero
              (by decide) rfl (Or.inl rfl) hb5 hstar
        _ = .solved 9 := runLoop_stars_zero [[1, 7]] fuel _ rfl
    exact ⟨core 9991, core 0,
      (fiveAheadEight 0 x y d b hb1 hb2 hb3 hb4 hc1 hc2 hc3 hc4).trans
        (runLoop_cap [[1, 7]] _ one_ne_zero)⟩

/-- Witness for C1: a call prepends the body `[2, 3]` of function 0, and
on a one-row level with the single star five tiles to the right the
program `F0 = [FW, F0]` is Solved in 9 raw steps (not in 8). -/
theorem C1_call_prepend_semantics_witness :
    runLoop [[2, 3]] 4 ⟨0, 0, 0, 1, [[1]], [7], 0⟩ =
      runLoop [[2, 3]] 3 ⟨0, 0, 0, 1, [[1]], [2, 3], 1⟩ ∧
    executeProgram ⟨0, 0, 2, 1, [[1, 1, 1, 1, 1, 5]]⟩ [[1, 7]] 10000 = .solved 9 ∧
    executeProgram ⟨0, 0, 2, 1, [[1, 1, 1, 1, 1, 5]]⟩ [[1, 7]] 8 = .failed := by
  refine ⟨C1_call_prepend_semantics.1 [[2, 3]] 3 0 0 0 1 [[1]] 7 0 [] 0
    (by decide) (by decide) (by decide) (by decide) (by decide) (by decide),
    ?_, ?_⟩
  · exact (C1_call_prepend_semantics.2 0 0 2 [[1, 1, 1, 1, 1, 5]]
      (by decide) (by decide) (by decide) (by decide) (by decide)
      (by decide) (by decide) (by decide) (by decide) (by decide)).1
  · exact (C1_call_prepend_semantics.2 0 0 2 [[1, 1, 1, 1, 1, 5]]
      (by decide) (by decide) (by decide) (by decide) (by decide)
      (by decide) (by decide) (by decide) (by decide) (by decide)).2.2

/-- C3: popping an instruction whose condition is present (`i / 100 ≠ 0`)
and differs from the current tile's color leaves position, direction,
star count and board unchanged, increments the step counter by exactly
one, and continues with the remaining stack (the instruction is simply
discarded).  The hypotheses `st ≠ 0` and `rest.length ≤ 99` say that the
step happens at all (otherwise the run has already terminated). -/
theorem C3_conditional_guard_noop (prog : List (List Nat)) (fuel : Nat)
    (x y : Int) (d st : Nat) (b : List (List Nat)) (i : Nat) (rest : List Nat)
    (steps : Nat) (hst : st ≠ 0) (hlen : rest.length ≤ 99)
    (hc : i / 100 ≠ 0) (hm : cellAt b x y % 4 ≠ i / 100) :
    runLoop prog (fuel + 1) ⟨x, y, d, st, b, i :: rest, steps⟩ =
      runLoop prog fuel ⟨x, y, d, st, b, rest, steps + 1⟩ :=
  runLoop_guard_skip prog fuel x y d st b i rest steps hst hlen hc hm

/-- Witness for C3: the conditional instruction `C1+FW` (code 101) on a
color-2 tile is discarded, consuming one step and changing nothing else. -/
theorem C3_conditional_guard_noop_witness :
    runLoop [] 4 ⟨0, 0, 2, 1, [[2]], [101], 0⟩ =
      runLoop [] 3 ⟨0, 0, 2, 1, [[2]], [], 1⟩ :=
  C3_conditional_guard_noop [] 3 0 0 2 1 [[2]] 101 [] 0 (by decide) (by decide)
    (by decide) (by decide)

/-- C4: Forward-death atomicity.  When a Forward instruction
(`i % 100 = 1`) executes (its guard passes) and the destination is
outside the 16×16 bounds or a void tile, the whole run fails at once —
the remaining stack `rest` and the leftover step budget are never
consulted.  Otherwise the robot moves; if the destination holds a star
(`cell > 3`) the star is cleared from the board and the remaining count
is decremented, else position alone changes. -/
theorem C4_forward_death_atomic (prog : List (List Nat)) (fuel : Nat)
    (x y : Int) (d st : Nat) (b : List (List Nat)) (i : Nat) (rest : List Nat)
    (steps : Nat) (hst : st ≠ 0) (hlen : rest.length ≤ 99)
    (hop : i % 100 = 1) (hg : guardPasses b x y i) :
    ((x + dxA d < 0 ∨ 16 ≤ x + dxA d ∨ y + dyA d < 0 ∨ 16 ≤ y + dyA d ∨
        cellAt b (x + dxA d) (y + dyA d) = 0) →
      runLoop prog (fuel + 1) ⟨x, y, d, st, b, i :: rest, steps⟩ = .failed) ∧
    (¬ (x + dxA d < 0 ∨ 16 ≤ x + dxA d ∨ y + dyA d < 0 ∨ 16 ≤ y + dyA d) →
      cellAt b (x + dxA d) (y + dyA d) ≠ 0 →
      runLoop prog (fuel + 1) ⟨x, y, d, st, b, i :: rest, steps⟩ =
        runLoop prog fuel
          (if 3 < cellAt b (x + dxA d) (y + dyA d) then
            ⟨x + dxA d, y + dyA d, d, st - 1,
              setCell b (x + dxA d) (y + dyA d)
                (cellAt b (x + dxA d) (y + dyA d) - 4), rest, steps + 1⟩
          else ⟨x + dxA d, y + dyA d, d, st, b, rest, steps + 1⟩)) := by
  constructor
  · intro hdead
    refine runLoop_fw_dead prog fuel x y d st b i rest steps hst hlen hop hg ?_
    tauto
  · intro hin ht0
    by_cases hts : 3 < cellAt b (x + dxA d) (y + dyA d)
    · rw [if_pos hts]
      exact runLoop_fw_star prog fuel x y d st b i rest steps hst hlen hop hg hin hts
    · rw [if_neg hts]
      exact runLoop_fw_plain prog fuel x y d st b i rest steps hst hlen hop hg hin ht0 hts

/-- Witness for C4: on the one-row board `[[1, 5]]`, moving left from
(0,0) leaves the board and kills the run at once, while moving right
collects the star at (1,0) and decrements the star count. -/
theorem C4_forward_death_atomic_witness :
    runLoop [] 4 ⟨0, 0, 0, 1, [[1, 5]], [1, 1, 1], 0⟩ = .failed ∧
    runLoop [] 4 ⟨0, 0, 2, 1, [[1, 5]], [1], 0⟩ =
      runLoop [] 3 ⟨1, 0, 2, 0, [[1, 1]], [], 1⟩ := by
  constructor
  · exact (C4_forward_death_atomic [] 3 0 0 0 1 [[1, 5]] 1 [1, 1] 0 (by decide)
      (by decide) (by decide) (Or.inl (by decide))).1 (by decide)
  · have h := (C4_forward_death_atomic [] 3 0 0 2 1 [[1, 5]] 1 [] 0 (by decide)
      (by decide) (by decide) (Or.inl (by decide))).2 (by decide) (by decide)
    rw [if_pos (by decide)] at h
    exact h.trans (by decide)

/-- C5: termination priority at the top of every VM step.  A state with
zero remaining stars is reported Solved whatever the stack and the
remaining step budget are (first conjunct); with stars remaining, an
empty stack, an over-100 stack, or an exhausted step budget each end the
run as a failure. -/
theorem C5_termination_priority (prog : List (List Nat)) (fuel : Nat) (s : VMState) :
    (s.stars = 0 → runLoop prog fuel s = .solved s.steps) ∧
    (s.stars ≠ 0 → s.stack = [] → runLoop prog fuel s = .failed) ∧
    (s.stars ≠ 0 → 100 < s.stack.length → fuel ≠ 0 → runLoop prog fuel s = .failed) ∧
    (s.stars ≠ 0 → fuel = 0 → runLoop prog fuel s = .failed) := by
  refine ⟨fun h => runLoop_stars_zero prog fuel s h,
    fun h hstk => runLoop_exhausted prog fuel s h hstk,
    fun h hlen hf => ?_,
    fun h hf => hf ▸ runLoop_cap prog s h⟩
  cases fuel with
  | zero => exact absurd rfl hf
  | succ n => exact runLoop_overflow prog n s h hlen

/-- Witness for C5: with zero stars the run is Solved even when the
stack is empty and the step budget is simultaneously exhausted, and a
starved run with an empty stack fails. -/
theorem C5_termination_priority_witness :
    runLoop [] 0 ⟨0, 0, 0, 0, [[1]], [], 7⟩ = .solved 7 ∧
    runLoop [] 5 ⟨0, 0, 0, 1, [[1]], [], 0⟩ = .failed :=
  ⟨(C5_termination_priority [] 0 ⟨0, 0, 0, 0, [[1]], [], 7⟩).1 rfl,
   (C5_termination_priority [] 5 ⟨0, 0, 0, 1, [[1]], [], 0⟩).2.1 (by decide) rfl⟩

/-- C9 counterexample: in the `GameEngine`, executing `Call1` (code 8)
when only function slot 0 is defined makes the run fail
(`callFunction` returns false and `step` sets the status to failed),
contradicting the claim that calling an undefined function never makes
the run fail. -/
theorem C9_empty_call_counterexample :
    (gameStep [[8]] ⟨0, 0, 0, 1, [[1]], [8], 0, .ready⟩).1.status = .failed ∧
    (gameStep [[8]] ⟨0, 0, 0, 1, [[1]], [8], 0, .ready⟩).2 = false := by
  constructor <;> decide

/-- C9 (amended): in the solver VM (`runLoop`), executing `Call n` whose
target slot is empty or undefined consumes exactly one step and changes
nothing but the popped stack entry.  In the `GameEngine`, calling a
defined-but-empty slot is likewise a no-op, but calling an undefined
slot pops the instruction, consumes the step, and fails the run. -/
theorem C9_empty_call_noop_amended :
    (∀ (prog : List (List Nat)) (fuel : Nat) (x y : Int) (d st : Nat)
      (b : List (List Nat)) (i n : Nat) (rest : List Nat) (steps : Nat),
      st ≠ 0 → rest.length ≤ 99 → i % 100 = 7 + n → n < 3 →
      guardPasses b x y i → prog.getD n [] = [] →
      runLoop prog (fuel + 1) ⟨x, y, d, st, b, i :: rest, steps⟩ =
        runLoop prog fuel ⟨x, y, d, st, b, rest, steps + 1⟩) ∧
    (∀ (prog : List (List Nat)) (x y : Int) (d st : Nat)
      (b : List (List Nat)) (i n : Nat) (rest : List Nat) (steps : Nat),
      st ≠ 0 → rest.length ≤ 99 → i % 100 = 7 + n → n < 3 →
      guardPasses b x y i → n < prog.length → prog.getD n [] = [] →
      gameStep prog ⟨x, y, d, st, b, i :: rest, steps, .ready⟩ =
        (⟨x, y, d, st, b, rest, steps + 1, .ready⟩, true)) ∧
    (∀ (prog : List (List Nat)) (x y : Int) (d st : Nat)
      (b : List (List Nat)) (i n : Nat) (rest : List Nat) (steps : Nat),
      st ≠ 0 → rest.length ≤ 99 → i % 100 = 7 + n → n < 3 →
      guardPasses b x y i → ¬ n < prog.length →
      gameStep prog ⟨x, y, d, st, b, i :: rest, steps, .ready⟩ =
        (⟨x, y, d, st, b, rest, steps + 1, .failed⟩, false)) := by
  refine ⟨?_, ?_, ?_⟩
  · intro prog fuel x y d st b i n rest steps hst hlen hop hn hg hempty
    by_cases hlt : n < prog.length
    · have h := runLoop_call prog fuel x y d st b i n rest steps hst hlen hop hn hg hlt
      rw [hempty, List.nil_append] at h
      exact h
    · exact runLoop_call_missing prog fuel x y d st b i n rest steps hst hlen hop hn
        hg hlt
  · intro prog x y d st b i n rest steps hst hlen hop hn hg hlt hempty
    simp only [gameStep, geTileColor, List.length_cons, hop]
    rw [if_neg (by simp : ¬ (GEStatus.ready = GEStatus.won ∨
          GEStatus.ready = GEStatus.failed)),
      if_neg hst, if_neg (by omega : ¬ 100 < rest.length + 1),
      if_neg (not_guard_skip hg),
      if_neg (by omega : ¬ 7 + n = 0), if_neg (by omega : ¬ 7 + n = 1),
      if_neg (by omega : ¬ 7 + n = 2), if_neg (by omega : ¬ 7 + n = 3),
      if_neg (by omega : ¬ 7 + n = 4), if_neg (by omega : ¬ 7 + n = 5),
      if_neg (by omega : ¬ 7 + n = 6),
      if_pos (by omega : 7 + n = 7 ∨ 7 + n = 8 ∨ 7 + n = 9),
      show 7 + n - 7 = n from by omega, if_pos hlt, hempty, List.nil_append]
  · intro prog x y d st b i n rest steps hst hlen hop hn hg hge
    simp only [gameStep, geTileColor, List.length_cons, hop]
    rw [if_neg (by simp : ¬ (GEStatus.ready = GEStatus.won ∨
          GEStatus.ready = GEStatus.failed)),
      if_neg hst, if_neg (by omega : ¬ 100 < rest.length + 1),
      if_neg (not_guard_skip hg),
      if_neg (by omega : ¬ 7 + n = 0), if_neg (by omega : ¬ 7 + n = 1),
      if_neg (by omega : ¬ 7 + n = 2), if_neg (by omega : ¬ 7 + n = 3),
      if_neg (by omega : ¬ 7 + n = 4), if_neg (by omega : ¬ 7 + n = 5),
      if_neg (by omega : ¬ 7 + n = 6),
      if_pos (by omega : 7 + n = 7 ∨ 7 + n = 8 ∨ 7 + n = 9),
      show 7 + n - 7 = n from by omega, if_neg hge]

/-- Witness for amended C9: calling the empty defined slot 1 is a no-op
in both the VM and the engine; calling the undefined slot 2 fails the
engine run but is a VM no-op. -/
theorem C9_empty_call_noop_amended_witness :
    runLoop [[8], []] 4 ⟨0, 0, 0, 1, [[1]], [8], 0⟩ =
      runLoop [[8], []] 3 ⟨0, 0, 0, 1, [[1]], [], 1⟩ ∧
    gameStep [[8], []] ⟨0, 0, 0, 1, [[1]], [8], 0, .ready⟩ =
      (⟨0, 0, 0, 1, [[1]], [], 1, .ready⟩, true) ∧
    gameStep [[9]] ⟨0, 0, 0, 1, [[1]], [9], 0, .ready⟩ =
      (⟨0, 0, 0, 1, [[1]], [], 1, .failed⟩, false) :=
  ⟨C9_empty_call_noop_amended.1 [[8], []] 3 0 0 0 1 [[1]] 8 1 [] 0 (by decide)
      (by decide) (by decide) (by decide) (Or.inl (by decide)) (by decide),
   C9_empty_call_noop_amended.2.1 [[8], []] 0 0 0 1 [[1]] 8 1 [] 0 (by decide)
      (by decide) (by decide) (by decide) (Or.inl (by decide)) (by decide)
      (by decide),
   C9_empty_call_noop_amended.2.2 [[9]] 0 0 0 1 [[1]] 9 2 [] 0 (by decide)
      (by decide) (by decide) (by decide) (Or.inl (by decide)) (by decide)⟩

/-- C10: TurnLeft;TurnRight and TurnRight;TurnLeft restore the direction
for every starting direction `d < 4`, and four TurnLefts are the
identity on the direction; neither sequence touches position, stars or
board — the continuation state differs from the start state only by the
consumed stack entries and the step counter. -/
theorem C10_turn_round_trip (prog : List (List Nat)) (fuel : Nat)
    (x y : Int) (d st : Nat) (b : List (List Nat)) (rest : List Nat)
    (steps : Nat) (hd : d < 4) (hst : st ≠ 0) (hlen : rest.length ≤ 96) :
    (runLoop prog (fuel + 2) ⟨x, y, d, st, b, 2 :: 3 :: rest, steps⟩ =
      runLoop prog fuel ⟨x, y, d, st, b, rest, steps + 2⟩) ∧
    (runLoop prog (fuel + 2) ⟨x, y, d, st, b, 3 :: 2 :: rest, steps⟩ =
      runLoop prog fuel ⟨x, y, d, st, b, rest, steps + 2⟩) ∧
    (runLoop prog (fuel + 4) ⟨x, y, d, st, b, 2 :: 2 :: 2 :: 2 :: rest, steps⟩ =
      runLoop prog fuel ⟨x, y, d, st, b, rest, steps + 4⟩) := by
  refine ⟨?_, ?_, ?_⟩
  · calc runLoop prog (fuel + 2) ⟨x, y, d, st, b, 2 :: 3 :: rest, steps⟩
        = runLoop prog (fuel + 1) ⟨x, y, (d + 3) % 4, st, b, 3 :: rest, steps + 1⟩ :=
          runLoop_turnL prog (fuel + 1) x y d st b 2 (3 :: rest) steps hst
            (by simp; omega) rfl (Or.inl rfl)
      _ = runLoop prog fuel ⟨x, y, ((d + 3) % 4 + 1) % 4, st, b, rest, steps + 1 + 1⟩ :=
          runLoop_turnR prog fuel x y ((d + 3) % 4) st b 3 rest (steps + 1) hst
            (by omega) rfl (Or.inl rfl)
      _ = runLoop prog fuel ⟨x, y, d, st, b, rest, steps + 2⟩ := by
          rw [show ((d + 3) % 4 + 1) % 4 = d from by omega,
            show steps + 1 + 1 = steps + 2 from rfl]
  · calc runLoop prog (fuel + 2) ⟨x, y, d, st, b, 3 :: 2 :: rest, steps⟩
        = runLoop prog (fuel + 1) ⟨x, y, (d + 1) % 4, st, b, 2 :: rest, steps + 1⟩ :=
          runLoop_turnR prog (fuel + 1) x y d st b 3 (2 :: rest) steps hst
            (by simp; omega) rfl (Or.inl rfl)
      _ = runLoop prog fuel ⟨x, y, ((d + 1) % 4 + 3) % 4, st, b, rest, steps + 1 + 1⟩ :=
          runLoop_turnL prog fuel x y ((d + 1) % 4) st b 2 rest (steps + 1) hst
            (by omega) rfl (Or.inl rfl)
      _ = runLoop prog fuel ⟨x, y, d, st, b, rest, steps + 2⟩ := by
          rw [show ((d + 1) % 4 + 3) % 4 = d from by omega,
            show steps + 1 + 1 = steps + 2 from rfl]
  · calc runLoop prog (fuel + 4) ⟨x, y, d, st, b, 2 :: 2 :: 2 :: 2 :: rest, steps⟩
        = runLoop prog (fuel + 3)
            ⟨x, y, (d + 3) % 4, st, b, 2 :: 2 :: 2 :: rest, steps + 1⟩ :=
          runLoop_turnL prog (fuel + 3) x y d st b 2 (2 :: 2 :: 2 :: rest) steps hst
            (by simp; omega) rfl (Or.inl rfl)
      _ = runLoop prog (fuel + 2)
            ⟨x, y, ((d + 3) % 4 + 3) % 4, st, b, 2 :: 2 :: rest, steps + 1 + 1⟩ :=
          runLoop_turnL prog (fuel + 2) x y ((d + 3) % 4) st b 2 (2 :: 2 :: rest)
            (steps + 1) hst (by simp; omega) rfl (Or.inl rfl)
      _ = runLoop prog (fuel + 1)
            ⟨x, y, (((d + 3) % 4 + 3) % 4 + 3) % 4, st, b, 2 :: rest, steps + 1 + 1 + 1⟩ :=
          runLoop_turnL prog (fuel + 1) x y (((d + 3) % 4 + 3) % 4) st b 2 (2 :: rest)
            (steps + 1 + 1) hst (by simp; omega) rfl (Or.inl rfl)
      _ = runLoop prog fuel
            ⟨x, y, ((((d + 3) % 4 + 3) % 4 + 3) % 4 + 3) % 4, st, b, rest,
              steps + 1 + 1 + 1 + 1⟩ :=
          runLoop_turnL prog fuel x y ((((d + 3) % 4 + 3) % 4 + 3) % 4) st b 2 rest
            (steps + 1 + 1 + 1) hst (by omega) rfl (Or.inl rfl)
      _ = runLoop prog fuel ⟨x, y, d, st, b, rest, steps + 4⟩ := by
          rw [show ((((d + 3) % 4 + 3) % 4 + 3) % 4 + 3) % 4 = d from by omega,
            show steps + 1 + 1 + 1 + 1 = steps + 4 from rfl]

/-! ### Lemmas about the candidate enumeration -/

/-- Every sequence produced by `genSlotAux instrs n seq` extends `seq`
by exactly `n` instructions. -/
theorem genSlotAux_length (instrs : List Nat) :
    ∀ (n : Nat) (seq s : List Nat), s ∈ genSlotAux instrs n seq →
      s.length = seq.length + n := by
  intro n
  induction n with
  | zero =>
    intro seq s h
    simp [genSlotAux] at h
    simp [h]
  | succ m ih =>
    intro seq s h
    simp only [genSlotAux, List.mem_flatMap] at h
    obtain ⟨i, _, hmem⟩ := h
    by_cases hv : isValidSequence (seq ++ [i]) seq.length = true
    · rw [if_pos hv] at hmem
      have hl := ih (seq ++ [i]) s hmem
      simp [List.length_append] at hl
      omega
    · rw [if_neg hv] at hmem
      simp at hmem

/-- Every program produced by `genFuncs instrs target bs used` has total
instruction count exactly `target - used` (so `target` when started at
`used = 0`). -/
theorem genFuncs_count (instrs : List Nat) (target : Nat) :
    ∀ (bs : List Nat) (used : Nat) (p : List (List Nat)),
      p ∈ genFuncs instrs target bs used → totalCount p + used = target := by
  intro bs
  induction bs with
  | nil =>
    intro used p h
    simp only [genFuncs] at h
    by_cases he : used = target
    · rw [if_pos he] at h
      simp at h
      simp [h, totalCount, he]
    · rw [if_neg he] at h
      simp at h
  | cons b bs ih =>
    intro used p h
    simp only [genFuncs, List.mem_flatMap, List.mem_map] at h
    obtain ⟨len, _, seq, hseq, rest, hrest, hp⟩ := h
    have hs := genSlotAux_length instrs len [] seq hseq
    have hr := ih (used + len) rest hrest
    subst hp
    simp only [totalCount, List.map_cons, List.sum_cons] at hr ⊢
    simp at hs
    omega

/-- `findSome?` over `List.range' start len`: a success is produced by
some index in the range, and every smaller index in the range yields
`none`. -/
theorem findSome?_range'_first {β : Type} (f : Nat → Option β) :
    ∀ (len start : Nat) (b : β),
      (List.range' start len).findSome? f = some b →
      ∃ d, start ≤ d ∧ d < start + len ∧ f d = some b ∧
        ∀ c, start ≤ c → c < d → f c = none := by
  intro len
  induction len with
  | zero =>
    intro start b h
    simp [List.findSome?] at h
  | succ m ih =>
    intro start b h
    rw [List.range'_succ, List.findSome?_cons] at h
    cases hf : f start with
    | some b0 =>
      rw [hf] at h
      simp at h
      exact ⟨start, le_refl start, by omega, by rw [hf, h], fun c h1 h2 => by omega⟩
    | none =>
      rw [hf] at h
      simp only at h
      obtain ⟨d, hd1, hd2, hd3, hd4⟩ := ih (start + 1) b h
      refine ⟨d, by omega, by omega, hd3, fun c h1 h2 => ?_⟩
      by_cases hc : c = start
      · rw [hc]; exact hf
      · exact hd4 c (by omega) h2

/-- C2: depth-minimality of the synthesis engine.  If the iterative
deepening loop (`solveModel`, deepening on the total instruction count
over all function slots) returns program `p` at depth `d`, then `p` is
reported Solved by the VM, its total instruction count is exactly `d`,
and no program of any smaller total count in the engine's search space
(the candidates `genFuncs` enumerates at the depths the engine visits)
solves the level — so `p`'s count is minimal among all solutions
discoverable in that space. -/
theorem C2_depth_minimality (lv : Level) (instrs budgets : List Nat)
    (p : List (List Nat)) (d : Nat)
    (h : solveModel lv instrs budgets = some (p, d)) :
    isSolvedLD (executeWithLoopDetection lv p 1000) = true ∧
    totalCount p = d ∧
    ∀ (c : Nat) (q : List (List Nat)), 1 ≤ c → c ≤ min budgets.sum 10 →
      q ∈ genFuncs instrs c budgets 0 →
      isSolvedLD (executeWithLoopDetection lv q 1000) = true → d ≤ c := by
  unfold solveModel at h
  obtain ⟨d0, hd1, hd2, hd3, hd4⟩ :=
    findSome?_range'_first _ (min budgets.sum 10) 1 (p, d) h
  cases hsd : searchDepthModel lv instrs budgets d0 with
  | none => rw [hsd] at hd3; exact Option.noConfusion hd3
  | some p0 =>
    rw [hsd] at hd3
    have hpd : (p0, d0) = (p, d) := Option.some.inj hd3
    have hp0 : p0 = p := congrArg Prod.fst hpd
    have hd0 : d0 = d := congrArg Prod.snd hpd
    subst hp0; subst hd0
    unfold searchDepthModel at hsd
    have hmem := List.mem_of_find?_eq_some hsd
    have hsol := List.find?_some hsd
    refine ⟨hsol, ?_, ?_⟩
    · have hc := genFuncs_count instrs d0 budgets 0 _ hmem
      omega
    · intro c q hc1 _ hq hsolq
      by_contra hcd
      push_neg at hcd
      have hnone := hd4 c hc1 hcd
      cases hsc : searchDepthModel lv instrs budgets c with
      | some q0 => rw [hsc] at hnone; exact Option.noConfusion hnone
      | none =>
        unfold searchDepthModel at hsc
        rw [List.find?_eq_none] at hsc
        exact hsc q hq hsolq

/-- Witness for C2: on a one-row level with the star adjacent to the
right, with only the Forward instruction available and a one-slot
budget, the engine returns the single-instruction program `[[1]]` at
depth 1, which the theorem certifies as a minimal solution. -/
theorem C2_depth_minimality_witness :
    isSolvedLD (executeWithLoopDetection ⟨0, 0, 2, 1, [[1, 5]]⟩ [[1]] 1000) = true ∧
    totalCount [[1]] = 1 :=
  ⟨(C2_depth_minimality ⟨0, 0, 2, 1, [[1, 5]]⟩ [1] [1] [[1]] 1 (by decide)).1,
   (C2_depth_minimality ⟨0, 0, 2, 1, [[1, 5]]⟩ [1] [1] [[1]] 1 (by decide)).2.1⟩

/-- C6: with loop detection enabled, the pure rotation recursion
`F0 = [TurnLeft, Call0]` (codes `[[2, 7]]`) is classified as a loop on
any level with at least one remaining star: the state key recurs after
eight steps, so the run is reported `loopDetected` — already within a
budget of 9 steps, far below the 1000-step cap. -/
theorem C6_loop_detection_rotation (lv : Level) (hd : lv.dir < 4)
    (hs : 1 ≤ lv.stars) :
    executeWithLoopDetection lv [[2, 7]] 1000 = .loopDetected ∧
    executeWithLoopDetection lv [[2, 7]] 9 = .loopDetected := by
  obtain ⟨x, y, d, st, b⟩ := lv
  simp only at hd hs
  have hst : st ≠ 0 := by omega
  constructor
  · show runLD [[2, 7]] (991 + 9) [] ⟨x, y, d, st, b, [2, 7], 0⟩ = .loopDetected
    interval_cases d
    · exact rotationLoopAux 991 x y st b 0 3 2 1 hst (by decide) (by decide)
        (by decide) (by decide) (by decide) (by decide) (by decide) (by decide)
        (by decide) (by decide)
    · exact rotationLoopAux 991 x y st b 1 0 3 2 hst (by decide) (by decide)
        (by decide) (by decide) (by decide) (by decide) (by decide) (by decide)
        (by decide) (by decide)
    · exact rotationLoopAux 991 x y st b 2 1 0 3 hst (by decide) (by decide)
        (by decide) (by decide) (by decide) (by decide) (by decide) (by decide)
        (by decide) (by decide)
    · exact rotationLoopAux 991 x y st b 3 2 1 0 hst (by decide) (by decide)
        (by decide) (by decide) (by decide) (by decide) (by decide) (by decide)
        (by decide) (by decide)
  · show runLD [[2, 7]] (0 + 9) [] ⟨x, y, d, st, b, [2, 7], 0⟩ = .loopDetected
    interval_cases d
    · exact rotationLoopAux 0 x y st b 0 3 2 1 hst (by decide) (by decide)
        (by decide) (by decide) (by decide) (by decide) (by decide) (by decide)
        (by decide) (by decide)
    · exact rotationLoopAux 0 x y st b 1 0 3 2 hst (by decide) (by decide)
        (by decide) (by decide) (by decide) (by decide) (by decide) (by decide)
        (by decide) (by decide)
    · exact rotationLoopAux 0 x y st b 2 1 0 3 hst (by decide) (by decide)
        (by decide) (by decide) (by decide) (by decide) (by decide) (by decide)
        (by decide) (by decide)
    · exact rotationLoopAux 0 x y st b 3 2 1 0 hst (by decide) (by decide)
        (by decide) (by decide) (by decide) (by decide) (by decide) (by decide)
        (by decide) (by decide)

/-- Witness for C6: on a concrete level (facing up, two stars left), the
rotation recursion is reported `loopDetected` at the default 1000-step
cap and already with a 9-step budget. -/
theorem C6_loop_detection_rotation_witness :
    executeWithLoopDetection ⟨0, 0, 1, 2, [[1, 5]]⟩ [[2, 7]] 1000 = .loopDetected ∧
    executeWithLoopDetection ⟨0, 0, 1, 2, [[1, 5]]⟩ [[2, 7]] 9 = .loopDetected :=
  C6_loop_detection_rotation ⟨0, 0, 1, 2, [[1, 5]]⟩ (by decide) (by decide)

/-- C8 counterexample: three runs that fail for three different reasons
per the spec's own classification (`runSpec`: death by leaving the
board, stack exhaustion, step-limit) all return the same untagged value
from the code's VM — a caller cannot tell the failure reasons apart. -/
theorem C8_run_outcome_counterexample :
    specRun cexLevel [[1]] 10 = .diedS 1 ∧
    specRun cexLevel [[0]] 10 = .exhaustedS ∧
    specRun cexLevel [[2, 7]] 6 = .stepLimitS ∧
    executeProgram cexLevel [[1]] 10 = executeProgram cexLevel [[0]] 10 ∧
    executeProgram cexLevel [[1]] 10 = executeProgram cexLevel [[2, 7]] 6 := by
  refine ⟨?_, ?_, ?_, ?_, ?_⟩ <;> decide

/-- C8 (amended): the VM's result distinguishes only success from
failure: any two failing runs — whatever their termination reasons —
return the same value, so Died, Exhausted and StepLimitReached are not
distinguishable from the result. -/
theorem C8_run_outcome_untagged_amended (lv1 : Level) (p1 : List (List Nat))
    (c1 : Nat) (lv2 : Level) (p2 : List (List Nat)) (c2 : Nat)
    (h1 : ∀ n, executeProgram lv1 p1 c1 ≠ .solved n)
    (h2 : ∀ n, executeProgram lv2 p2 c2 ≠ .solved n) :
    executeProgram lv1 p1 c1 = executeProgram lv2 p2 c2 := by
  cases e1 : executeProgram lv1 p1 c1 with
  | solved n => exact absurd e1 (h1 n)
  | failed =>
    cases e2 : executeProgram lv2 p2 c2 with
    | solved n => exact absurd e2 (h2 n)
    | failed => rfl

/-- Witness for amended C8: the run that dies leaving the board and the
run that exhausts its stack return equal values. -/
theorem C8_run_outcome_untagged_amended_witness :
    executeProgram cexLevel [[1]] 10 = executeProgram cexLevel [[0]] 10 :=
  C8_run_outcome_untagged_amended cexLevel [[1]] 10 cexLevel [[0]] 10
    (fun n h => by
      rw [show executeProgram cexLevel [[1]] 10 = Outcome.failed from by decide] at h
      simp at h)
    (fun n h => by
      rw [show executeProgram cexLevel [[0]] 10 = Outcome.failed from by decide] at h
      simp at h)

/-- `(l1 ++ a :: l2).getD l1.length d = a`. -/
theorem getD_append_len (l1 l2 : List Nat) (a e : Nat) :
    (l1 ++ a :: l2).getD l1.length e = a := by
  induction l1 with
  | nil => rfl
  | cons h t ih => simpa using ih

/-- `(l1 ++ a :: b :: l2).getD (l1.length + 1) d = b`. -/
theorem getD_append_len_succ (l1 l2 : List Nat) (a b e : Nat) :
    (l1 ++ a :: b :: l2).getD (l1.length + 1) e = b := by
  induction l1 with
  | nil => rfl
  | cons h t ih => simpa using ih

/-- C7: post-call termination pruning.  An unconditional call
(`i / 100 = 0`, opcode 7/8/9) sets the `terminated` flag so that no
further instruction is admissible in the slot (`getValidInstructions`
returns `[]`); the same call with a condition leaves `terminated`
unset and every instruction remains admissible.  The `FinalSolver`
variant of the rule (`isValidSequence`) likewise rejects every
continuation after an unconditional call and accepts any continuation
after a conditional one. -/
theorem C7_post_call_termination (c : Constraints) (i : Nat) (all : List Nat)
    (pos maxLen : Nat) (hcall : i % 100 = 7 ∨ i % 100 = 8 ∨ i % 100 = 9) :
    (i / 100 = 0 →
      getValidInstructions (propagateConstraints c i pos maxLen) all = []) ∧
    (i / 100 ≠ 0 → c.terminated = false →
      (propagateConstraints c i pos maxLen).terminated = false ∧
      getValidInstructions (propagateConstraints c i pos maxLen) all = all) ∧
    (i / 100 = 0 → ∀ (pre : List Nat) (next : Nat),
      isValidSequence (pre ++ [i, next]) (pre.length + 1) = false) ∧
    (i / 100 ≠ 0 → ∀ (pre : List Nat) (next : Nat),
      isValidSequence (pre ++ [i, next]) (pre.length + 1) = true) := by
  refine ⟨?_, ?_, ?_, ?_⟩
  · intro hc0
    rcases hcall with h | h | h <;>
      simp [propagateConstraints, getValidInstructions, h, hc0]
  · intro hc0 hterm
    rcases hcall with h | h | h <;>
      simp [propagateConstraints, getValidInstructions, h, hc0, hterm]
  · intro hc0 pre next
    simp only [isValidSequence, Nat.add_sub_cancel,
      show pre ++ [i, next] = pre ++ i :: next :: [] from rfl,
      getD_append_len, getD_append_len_succ]
    rw [if_neg (Nat.succ_ne_zero _), if_pos ⟨hc0, hcall⟩]
  · intro hc0 pre next
    simp only [isValidSequence, Nat.add_sub_cancel,
      show pre ++ [i, next] = pre ++ i :: next :: [] from rfl,
      getD_append_len, getD_append_len_succ]
    rw [if_neg (Nat.succ_ne_zero _),
      if_neg (fun hh => hc0 hh.1),
      if_neg ?_]
    rintro ⟨-, ⟨-, h2, -⟩ | ⟨-, h2, -⟩⟩ <;> omega

/-- Witness for C7: after the unconditional `Call0` (code 7) nothing is
admissible; after the conditional `C1+Call0` (code 107) the whole
instruction list remains admissible, and `isValidSequence` agrees. -/
theorem C7_post_call_termination_witness :
    getValidInstructions (propagateConstraints initConstraints 7 0 2) [1, 2, 7] = [] ∧
    getValidInstructions (propagateConstraints initConstraints 107 0 2) [1, 2, 7] =
      [1, 2, 7] ∧
    isValidSequence [1, 7, 1] 2 = false ∧
    isValidSequence [1, 107, 1] 2 = true := by
  refine ⟨(C7_post_call_termination initConstraints 7 [1, 2, 7] 0 2
      (by decide)).1 (by decide),
    ((C7_post_call_termination initConstraints 107 [1, 2, 7] 0 2
      (by decide)).2.1 (by decide) (by decide)).2,
    ?_, ?_⟩
  · exact (C7_post_call_termination initConstraints 7 [] 0 2 (by decide)).2.2.1
      (by decide) [1] 1
  · exact (C7_post_call_termination initConstraints 107 [] 0 2 (by decide)).2.2.2
      (by decide) [1] 1

/-- Witness for C10: from direction 1 (up), TurnLeft;TurnRight and four
TurnLefts return to the continuation state with the direction restored. -/
theorem C10_turn_round_trip_witness :
    runLoop [] 7 ⟨3, 3, 1, 2, [[1]], [2, 3], 0⟩ =
      runLoop [] 5 ⟨3, 3, 1, 2, [[1]], [], 2⟩ ∧
    runLoop [] 9 ⟨3, 3, 1, 2, [[1]], [2, 2, 2, 2], 0⟩ =
      runLoop [] 5 ⟨3, 3, 1, 2, [[1]], [], 4⟩ :=
  ⟨(C10_turn_round_trip [] 5 3 3 1 2 [[1]] [] 0 (by decide) (by decide)
      (by decide)).1,
   (C10_turn_round_trip [] 5 3 3 1 2 [[1]] [] 0 (by decide) (by decide)
      (by decide)).2.2⟩

end LogicGame
